import Mathlib

/-!
Verification of the process-lifecycle event monitor
(`pkg/process/monitor/process_monitor.go` of the datadog-agent repository).

The development shallowly embeds the monitor's state and operations:

* `ProcessMonitor` mirrors the Go struct of the same name: the refcount
  (`atomic.Int32`, modelled as `Int`), the consumed-state of the
  `sync.Once` guard (`initOnceDone`), the `done` channel being non-nil
  (`doneOpen`), the two callback registries (Go maps keyed by fresh
  closure pointers, modelled as lists of fresh numeric handles), the two
  `atomic.Bool` "has subscribers" flags, the bounded `callbackRunner`
  channel (modelled as a list bounded by `pendingCallbacksQueueSize`),
  and the telemetry counters.
* Sequential operations (`GetProcessMonitor`, `SubscribeExec`,
  `SubscribeExit`, the unsubscribe closures, `handleProcessExec`,
  `handleProcessExit`, `Initialize`, `Stop`, the transport-error arm of
  `mainEventLoop`) become pure state transformers.  External collaborators
  (netlink, the `/proc` enumerator) are parameters (`InitEnv`), and the
  side effects the claims talk about are recorded as explicit action
  traces.
* The concurrent worker pool (`initCallbackRunner` workers draining the
  shared `callbackRunner` channel) becomes a small-step transition
  relation `PoolStep` on `PoolState`, with a decidable scheduler
  (`runScript`) used to exhibit concrete interleavings.
-/

namespace ProcMon

/-- Process identifier (`uint32` in the Go code; no arithmetic is performed
on it, so it is modelled as `Nat`). -/
abbrev Pid := Nat

/-- Identity of a registered callback.  The Go code keys its registries by
`*ProcessCallback`, the address of a fresh stack copy of the callback
taken at each `Subscribe` call, so every subscription has a fresh key;
we model the keys as consecutive numeric handles. -/
abbrev CallbackId := Nat

/-- A unit of dispatch work: the closure `func() { (*temporaryCallback)(pid) }`
sent on the `callbackRunner` channel, closing over one callback and one pid. -/
structure DispatchUnit where
  cb : CallbackId
  pid : Pid
deriving DecidableEq, Repr

/-- The telemetry counters of `processMonitorTelemetry`. -/
structure Telemetry where
  events : Nat
  exec : Nat
  exit : Nat
  restart : Nat
  reinitFailed : Nat
  processScanFailed : Nat
  callbackExecuted : Nat
  processExecChannelIsFull : Nat
  processExitChannelIsFull : Nat
deriving DecidableEq, Repr

/-- The all-zero counters. -/
def Telemetry.zero : Telemetry :=
  { events := 0, exec := 0, exit := 0, restart := 0, reinitFailed := 0
    processScanFailed := 0, callbackExecuted := 0
    processExecChannelIsFull := 0, processExitChannelIsFull := 0 }

/-- Capacity of the `callbackRunner` channel (`pendingCallbacksQueueSize`). -/
def pendingCallbacksQueueSize : Nat := 5000

/-- State of the `ProcessMonitor` Go struct.  `initOnceDone` is whether the
`sync.Once` guard `initOnce` has been consumed; `doneOpen` is whether the
`done` channel is non-nil (allocated and not yet shut); `callbackRunner` is
the content of the bounded dispatch channel; `nextCallbackId` models the
allocator of fresh callback addresses. -/
structure ProcessMonitor where
  refcount : Int
  initOnceDone : Bool
  doneOpen : Bool
  useEventStream : Bool
  hasExecCallbacks : Bool
  processExecCallbacks : List CallbackId
  hasExitCallbacks : Bool
  processExitCallbacks : List CallbackId
  callbackRunner : List DispatchUnit
  tel : Telemetry
  nextCallbackId : Nat
deriving DecidableEq, Repr

/-- The package-level `processMonitor` variable: empty registries, zero
refcount, an unconsumed init guard, nil channels. -/
def initialMonitor : ProcessMonitor :=
  { refcount := 0, initOnceDone := false, doneOpen := false
    useEventStream := false
    hasExecCallbacks := false, processExecCallbacks := []
    hasExitCallbacks := false, processExitCallbacks := []
    callbackRunner := [], tel := Telemetry.zero, nextCallbackId := 0 }

/-- Embeds `GetProcessMonitor`: increments the refcount and hands back the
singleton. -/
def getProcessMonitor (pm : ProcessMonitor) : ProcessMonitor :=
  { pm with refcount := pm.refcount + 1 }

/-- Embeds `SubscribeExec`: under the write lock, sets the exec flag to
true and inserts a fresh key into the exec registry.  Returns the key,
which identifies the unsubscribe closure. -/
def subscribeExec (pm : ProcessMonitor) : ProcessMonitor × CallbackId :=
  ({ pm with
      nextCallbackId := pm.nextCallbackId + 1
      hasExecCallbacks := true
      processExecCallbacks := pm.processExecCallbacks ++ [pm.nextCallbackId] },
   pm.nextCallbackId)

/-- Embeds the unsubscribe closure returned by `SubscribeExec`: under the
write lock, deletes the key and stores `len(map) > 0` into the exec flag. -/
def unsubscribeExec (pm : ProcessMonitor) (id : CallbackId) : ProcessMonitor :=
  let remaining := pm.processExecCallbacks.filter (fun c => c != id)
  { pm with
      processExecCallbacks := remaining
      hasExecCallbacks := !remaining.isEmpty }

/-- Embeds `SubscribeExit`: under the write lock, sets the exit flag to
true and inserts a fresh key into the exit registry. -/
def subscribeExit (pm : ProcessMonitor) : ProcessMonitor × CallbackId :=
  ({ pm with
      nextCallbackId := pm.nextCallbackId + 1
      hasExitCallbacks := true
      processExitCallbacks := pm.processExitCallbacks ++ [pm.nextCallbackId] },
   pm.nextCallbackId)

/-- Embeds the unsubscribe closure returned by `SubscribeExit`. -/
def unsubscribeExit (pm : ProcessMonitor) (id : CallbackId) : ProcessMonitor :=
  let remaining := pm.processExitCallbacks.filter (fun c => c != id)
  { pm with
      processExitCallbacks := remaining
      hasExitCallbacks := !remaining.isEmpty }

/-- The dispatch loop shared by `handleProcessExec` and `handleProcessExit`:
for each registered callback, a non-blocking send of the dispatch unit on
the bounded channel (`select` with a `default` arm); on a full channel the
unit is dropped and the per-kind drop counter is bumped.  Returns the new
channel content and the new drop-counter value. -/
def dispatchAll (cbs : List CallbackId) (pid : Pid)
    (queue : List DispatchUnit) (dropped : Nat) : List DispatchUnit × Nat :=
  match cbs with
  | [] => (queue, dropped)
  | cb :: rest =>
      if queue.length < pendingCallbacksQueueSize then
        dispatchAll rest pid (queue ++ [⟨cb, pid⟩]) dropped
      else
        dispatchAll rest pid queue (dropped + 1)

/-- Embeds `handleProcessExec`: under the read lock, iterates the exec
registry and non-blockingly enqueues one dispatch unit per callback,
counting drops in `processExecChannelIsFull`. -/
def handleProcessExec (pm : ProcessMonitor) (pid : Pid) : ProcessMonitor :=
  let r := dispatchAll pm.processExecCallbacks pid pm.callbackRunner
      pm.tel.processExecChannelIsFull
  { pm with
      callbackRunner := r.1
      tel := { pm.tel with processExecChannelIsFull := r.2 } }

/-- Embeds `handleProcessExit`: under the read lock, iterates the exit
registry and non-blockingly enqueues one dispatch unit per callback,
counting drops in `processExitChannelIsFull`. -/
def handleProcessExit (pm : ProcessMonitor) (pid : Pid) : ProcessMonitor :=
  let r := dispatchAll pm.processExitCallbacks pid pm.callbackRunner
      pm.tel.processExitChannelIsFull
  { pm with
      callbackRunner := r.1
      tel := { pm.tel with processExitChannelIsFull := r.2 } }

/-- Embeds `Stop`: decrements the refcount; a nonzero result clamps a
negative count back to zero and returns without teardown.  A zero result
performs the full teardown: shuts the `done` channel (waiting for the event
loop or, in event-stream mode, for the callback runners), then resets the
`sync.Once` guard and replaces both registries with fresh empty maps.  The
Boolean result records whether the teardown path ran. -/
def stop (pm : ProcessMonitor) : ProcessMonitor × Bool :=
  let rc := pm.refcount - 1
  if rc ≠ 0 then
    (if rc < 0 then { pm with refcount := 0 } else { pm with refcount := rc },
     false)
  else
    let pm1 := { pm with refcount := 0 }
    let pm2 := if pm1.doneOpen then { pm1 with doneOpen := false } else pm1
    ({ pm2 with
        initOnceDone := false
        processExecCallbacks := []
        processExitCallbacks := [] },
     true)

/-- Outcomes of the external collaborators consulted during `Initialize`:
whether `netlink.ProcEventMonitor` succeeds, the pids the external `/proc`
enumerator (`kernel.WithAllProcs`) yields, and whether that enumeration
succeeds.  `Modelled from the spec:` the enumerator itself
(`kernel.WithAllProcs`) is not part of the sampled source; per the spec it
is "an external enumerator invoked once during initialization" that feeds
each currently-running pid to the supplied function and may fail. -/
structure InitEnv where
  netlinkOk : Bool
  procs : List Pid
  scanOk : Bool
deriving DecidableEq, Repr

/-- Errors produced by `Initialize`. -/
inductive InitError where
  | netlinkInit
  | processScan
deriving DecidableEq, Repr

/-- Observable side effects of `Initialize`, recorded as a trace. -/
inductive InitAction where
  | newTelemetry
  | initCallbackRunner
  | startEventLoop
  | netlinkInit
  | scanProcs
deriving DecidableEq, Repr

/-- Result of `Initialize`: the new monitor state, the error returned to
the caller, and the trace of side effects performed. -/
structure InitResult where
  pm : ProcessMonitor
  err : Option InitError
  actions : List InitAction
deriving DecidableEq, Repr

/-- The unconditional part of the `initOnce.Do` body of `Initialize`:
records the transport choice, allocates the `done` channel, and runs
`initCallbackRunner` (fresh empty `callbackRunner` channel, fresh stop
channel, workers started). -/
def initSetup (pm : ProcessMonitor) (useEventStream : Bool) : ProcessMonitor :=
  { pm with
      initOnceDone := true
      useEventStream := useEventStream
      doneOpen := true
      callbackRunner := [] }

/-- Embeds `Initialize` (the Go method is named `Initialize`).  The
`sync.Once` guard skips the body entirely when already consumed, returning
a nil error; otherwise the guard is consumed (regardless of the body's
outcome) and the body runs: telemetry and callback runners always; in
event-stream mode nothing else; in netlink mode the main event loop is
started and `netlink.ProcEventMonitor` is attempted (a failure records the
error but the body continues), and then, only when the exec registry is
non-empty, the external enumerator feeds every enumerated pid through
`handleProcessExec`. -/
def initializeMonitor (pm : ProcessMonitor) (useEventStream : Bool)
    (env : InitEnv) : InitResult :=
  if pm.initOnceDone then
    { pm := pm, err := none, actions := [] }
  else
    let pm1 := initSetup pm useEventStream
    if useEventStream then
      { pm := pm1, err := none
        actions := [.newTelemetry, .initCallbackRunner] }
    else
      let netErr : Option InitError :=
        if env.netlinkOk then none else some .netlinkInit
      let baseActions : List InitAction :=
        [.newTelemetry, .initCallbackRunner, .startEventLoop, .netlinkInit]
      if pm1.processExecCallbacks.isEmpty then
        { pm := pm1, err := netErr, actions := baseActions }
      else
        let pm2 := env.procs.foldl handleProcessExec pm1
        if env.scanOk then
          { pm := pm2, err := netErr, actions := baseActions ++ [.scanProcs] }
        else
          { pm := { pm2 with
              tel := { pm2.tel with
                processScanFailed := pm2.tel.processScanFailed + 1 } }
            err := some .processScan
            actions := baseActions ++ [.scanProcs] }

/-- A netlink process event as classified by `mainEventLoop`'s
`switch ev := event.Msg.(type)`. -/
inductive NetlinkMsg where
  | execEvent (pid : Pid)
  | exitEvent (pid : Pid)
  | other
deriving DecidableEq, Repr

/-- One arm of the `select` in `mainEventLoop` becoming ready. -/
inductive LoopInput where
  | doneSignal
  | eventsClosed
  | event (msg : NetlinkMsg)
  | errorsClosed
  | transportError
  | tick
deriving DecidableEq, Repr

/-- Side effects of one `mainEventLoop` iteration, recorded as a trace. -/
inductive LoopAction where
  | signalNetlinkDone
  | sleepMs (n : Nat)
  | reopenNetlink
deriving DecidableEq, Repr

/-- Whether the loop iteration returns (running its deferred cleanup:
closing the netlink done channel, stopping and waiting for all callback
runners, releasing `processMonitorWG`) or continues to the next
iteration. -/
inductive LoopOutcome where
  | continueLoop
  | exitLoop
deriving DecidableEq, Repr

/-- Result of one `mainEventLoop` iteration. -/
structure LoopStepResult where
  pm : ProcessMonitor
  outcome : LoopOutcome
  actions : List LoopAction
deriving DecidableEq, Repr

/-- Embeds one iteration of the `for`/`select` body of `mainEventLoop`.
The `reopenOk` parameter is the outcome of `initNetlinkProcessEventMonitor`
should the iteration attempt a reopen (a fresh set of netlink channels and
a new `netlink.ProcEventMonitor` registration). -/
def loopStep (pm : ProcessMonitor) (inp : LoopInput) (reopenOk : Bool) :
    LoopStepResult :=
  match inp with
  | .doneSignal => { pm := pm, outcome := .exitLoop, actions := [] }
  | .eventsClosed => { pm := pm, outcome := .exitLoop, actions := [] }
  | .event msg =>
      let pmE := { pm with tel := { pm.tel with events := pm.tel.events + 1 } }
      match msg with
      | .execEvent pid =>
          let pmX := { pmE with
            tel := { pmE.tel with exec := pmE.tel.exec + 1 } }
          let pmY := if pmX.hasExecCallbacks then handleProcessExec pmX pid
            else pmX
          { pm := pmY, outcome := .continueLoop, actions := [] }
      | .exitEvent pid =>
          let pmX := { pmE with
            tel := { pmE.tel with exit := pmE.tel.exit + 1 } }
          let pmY := if pmX.hasExitCallbacks then handleProcessExit pmX pid
            else pmX
          { pm := pmY, outcome := .continueLoop, actions := [] }
      | .other => { pm := pmE, outcome := .continueLoop, actions := [] }
  | .errorsClosed => { pm := pm, outcome := .exitLoop, actions := [] }
  | .transportError =>
      let pmR := { pm with
        tel := { pm.tel with restart := pm.tel.restart + 1 } }
      if reopenOk then
        { pm := pmR, outcome := .continueLoop
          actions := [.signalNetlinkDone, .sleepMs 50, .reopenNetlink] }
      else
        { pm := { pmR with
            tel := { pmR.tel with reinitFailed := pmR.tel.reinitFailed + 1 } }
          outcome := .exitLoop
          actions := [.signalNetlinkDone, .sleepMs 50, .reopenNetlink] }
  | .tick => { pm := pm, outcome := .continueLoop, actions := [] }

/-- Embeds the exec callback that `InitializeEventConsumer` wires into the
external event-stream consumer: bump the `events` and `exec` counters and,
when the exec flag is set, route through `handleProcessExec`. -/
def eventConsumerExecHandler (pm : ProcessMonitor) (pid : Pid) :
    ProcessMonitor :=
  let pmE := { pm with tel := { pm.tel with
      events := pm.tel.events + 1, exec := pm.tel.exec + 1 } }
  if pmE.hasExecCallbacks then handleProcessExec pmE pid else pmE

/-- Embeds the exit callback that `InitializeEventConsumer` wires into the
external event-stream consumer. -/
def eventConsumerExitHandler (pm : ProcessMonitor) (pid : Pid) :
    ProcessMonitor :=
  let pmE := { pm with tel := { pm.tel with
      events := pm.tel.events + 1, exit := pm.tel.exit + 1 } }
  if pmE.hasExitCallbacks then handleProcessExit pmE pid else pmE

/-- Status of one callback-runner goroutine: at its loop (holding no
work), holding a received unit whose `call()` has not yet run, or
returned. -/
inductive WStatus where
  | idle
  | holding (u : DispatchUnit)
  | exited
deriving DecidableEq, Repr

/-- State of the dispatch pool: the stop channel, the content of the
bounded `callbackRunner` channel, the runner goroutines, the ordered log
of units whose `call()` has completed (what a recording callback
observes), and the ordered log of units successfully sent on the
channel. -/
structure PoolState where
  stopClosed : Bool
  queue : List DispatchUnit
  workers : List WStatus
  executed : List DispatchUnit
  enqueued : List DispatchUnit
deriving DecidableEq, Repr

/-- Small-step transition relation of the dispatch pool.

* `enqueue` is the successful arm of the non-blocking `select` send in
  `handleProcessExec`/`handleProcessExit`, performed by the single event
  loop in event order.
* `closeStop` is `stopCallbackRunners` closing `callbackRunnerStopChannel`.
* `exitWorker` is a runner observing the closed stop channel in either of
  its two `select`s and returning.
* `take` is a runner receiving a unit from the channel (channel receives
  are FIFO); it may happen after the stop channel is closed because the Go
  `select` chooses randomly among ready arms.
* `run` is the runner invoking the received `call()`, the only point at
  which the subscriber's callback observes the unit. -/
inductive PoolStep : PoolState → PoolState → Prop where
  | enqueue (s : PoolState) (u : DispatchUnit)
      (h : s.queue.length < pendingCallbacksQueueSize) :
      PoolStep s { s with queue := s.queue ++ [u], enqueued := s.enqueued ++ [u] }
  | closeStop (s : PoolState) :
      PoolStep s { s with stopClosed := true }
  | exitWorker (s : PoolState) (i : Nat)
      (hw : s.workers.get? i = some .idle) (hstop : s.stopClosed = true) :
      PoolStep s { s with workers := s.workers.set i .exited }
  | take (s : PoolState) (i : Nat) (u : DispatchUnit) (rest : List DispatchUnit)
      (hw : s.workers.get? i = some .idle) (hq : s.queue = u :: rest) :
      PoolStep s { s with workers := s.workers.set i (.holding u), queue := rest }
  | run (s : PoolState) (i : Nat) (u : DispatchUnit)
      (hw : s.workers.get? i = some (.holding u)) :
      PoolStep s { s with workers := s.workers.set i .idle
                          executed := s.executed ++ [u] }

/-- Zero or more pool steps. -/
def PoolSteps : PoolState → PoolState → Prop :=
  Relation.ReflTransGen PoolStep

/-- The postcondition of `stopCallbackRunners`: the stop channel is closed
and `callbackRunnersWG.Wait()` has returned, i.e. every runner goroutine
has exited. -/
def stopAllReturned (s : PoolState) : Prop :=
  s.stopClosed = true ∧ ∀ w ∈ s.workers, w = WStatus.exited

instance (s : PoolState) : Decidable (stopAllReturned s) := by
  unfold stopAllReturned; infer_instance

/-- A deterministic schedule command, used to exhibit concrete
interleavings of `PoolStep`. -/
inductive PoolCmd where
  | enqueue (u : DispatchUnit)
  | closeStop
  | exitWorker (i : Nat)
  | take (i : Nat)
  | run (i : Nat)
deriving DecidableEq, Repr

/-- Executable single-command scheduler; succeeds exactly when the
corresponding `PoolStep` is enabled. -/
def applyCmd (s : PoolState) (c : PoolCmd) : Option PoolState :=
  match c with
  | .enqueue u =>
      if s.queue.length < pendingCallbacksQueueSize then
        some { s with queue := s.queue ++ [u], enqueued := s.enqueued ++ [u] }
      else none
  | .closeStop => some { s with stopClosed := true }
  | .exitWorker i =>
      match s.workers.get? i with
      | some .idle =>
          if s.stopClosed then some { s with workers := s.workers.set i .exited }
          else none
      | _ => none
  | .take i =>
      match s.workers.get? i, s.queue with
      | some .idle, u :: rest =>
          some { s with workers := s.workers.set i (.holding u), queue := rest }
      | _, _ => none
  | .run i =>
      match s.workers.get? i with
      | some (.holding u) =>
          some { s with workers := s.workers.set i .idle
                        executed := s.executed ++ [u] }
      | _ => none

/-- Executable scheduler for a whole script of commands. -/
def runScript (s : PoolState) : List PoolCmd → Option PoolState
  | [] => some s
  | c :: cs =>
      match applyCmd s c with
      | some s1 => runScript s1 cs
      | none => none

/-- The per-kind subscriber flags agree with non-emptiness of the
corresponding registries. -/
def flagsInSync (pm : ProcessMonitor) : Prop :=
  pm.hasExecCallbacks = !pm.processExecCallbacks.isEmpty ∧
  pm.hasExitCallbacks = !pm.processExitCallbacks.isEmpty

instance (pm : ProcessMonitor) : Decidable (flagsInSync pm) := by
  unfold flagsInSync; infer_instance

/-- The units currently received by some runner but whose `call()` has not
yet executed. -/
def heldUnits (ws : List WStatus) : List DispatchUnit :=
  ws.foldr
    (fun w acc =>
      match w with
      | .holding u => u :: acc
      | _ => acc)
    []

/-- The state reached by `Stop` (dropping the teardown indicator). -/
def stopFst (pm : ProcessMonitor) : ProcessMonitor := (stop pm).1

/-- One logical `Acquire` of the spec: `GetProcessMonitor` followed by
`Initialize` in netlink mode. -/
def acquireAndInit (env : InitEnv) (pm : ProcessMonitor) : ProcessMonitor :=
  (initializeMonitor (getProcessMonitor pm) false env).pm

/-- An environment in which `netlink.ProcEventMonitor` fails. -/
def badNetlinkEnv : InitEnv := { netlinkOk := false, procs := [], scanOk := true }

/-- An environment in which all collaborators succeed and the enumerator
yields no processes. -/
def goodEnv : InitEnv := { netlinkOk := true, procs := [], scanOk := true }

/-- State after a first `Initialize` whose netlink registration failed. -/
def c2AfterFailedInit : InitResult :=
  initializeMonitor (getProcessMonitor initialMonitor) false badNetlinkEnv

/-- A monitor with one live exec subscription and an unconsumed init
guard. -/
def oneExecSubMonitor : ProcessMonitor := (subscribeExec initialMonitor).1

/-- Double-unsubscribe scenario: subscribe an exec callback, invoke its
unsubscribe function once, subscribe a second exec callback, then run an
acquire/release cycle whose release reaches refcount zero and tears the
monitor down. -/
def c6Sub1 : ProcessMonitor × CallbackId := subscribeExec initialMonitor

/-- The state after the first invocation of the first unsubscribe
function. -/
def c6AfterFirstUnsub : ProcessMonitor := unsubscribeExec c6Sub1.1 c6Sub1.2

/-- The state after the second exec subscription. -/
def c6AfterSecondSub : ProcessMonitor := (subscribeExec c6AfterFirstUnsub).1

/-- The state after the teardown (acquire then release to zero). -/
def c6AfterTeardown : ProcessMonitor :=
  (stop (getProcessMonitor c6AfterSecondSub)).1

/-- The state after the second invocation of the first unsubscribe
function. -/
def c6AfterSecondUnsub : ProcessMonitor :=
  unsubscribeExec c6AfterTeardown c6Sub1.2

/-- Pool with two idle runner goroutines and empty channel, as left by
`initCallbackRunner` on a two-cpu host. -/
def c9Worker2Start : PoolState :=
  { stopClosed := false, queue := [], workers := [.idle, .idle]
    executed := [], enqueued := [] }

/-- The dispatch units produced by one exec subscription fed the pid
sequence 10, 20, 10, 30 in that order. -/
def c9Fed : List DispatchUnit := [⟨0, 10⟩, ⟨0, 20⟩, ⟨0, 10⟩, ⟨0, 30⟩]

/-- A legal interleaving of two runners in which runner 1 completes the
unit for pid 20 before runner 0 completes the earlier unit for pid 10. -/
def c9BadScript : List PoolCmd :=
  [.enqueue ⟨0, 10⟩, .enqueue ⟨0, 20⟩, .take 0, .take 1, .run 1, .run 0,
   .enqueue ⟨0, 10⟩, .enqueue ⟨0, 30⟩, .take 0, .run 0, .take 0, .run 0]

/-- The state the bad interleaving reaches: all four units executed, in
the order 20, 10, 10, 30. -/
def c9Bad : PoolState :=
  { stopClosed := false, queue := [], workers := [.idle, .idle]
    executed := [⟨0, 20⟩, ⟨0, 10⟩, ⟨0, 10⟩, ⟨0, 30⟩]
    enqueued := c9Fed }

/-- Pool with a single runner goroutine. -/
def c9OneWorkerStart : PoolState :=
  { stopClosed := false, queue := [], workers := [.idle]
    executed := [], enqueued := [] }

/-- A single-runner schedule delivering two units. -/
def c9GoodScript : List PoolCmd :=
  [.enqueue ⟨0, 10⟩, .take 0, .run 0, .enqueue ⟨0, 20⟩, .take 0, .run 0]

/-- The state the single-runner schedule reaches. -/
def c9Good : PoolState :=
  { stopClosed := false, queue := [], workers := [.idle]
    executed := [⟨0, 10⟩, ⟨0, 20⟩]
    enqueued := [⟨0, 10⟩, ⟨0, 20⟩] }

/-- An environment whose enumerator yields two running processes. -/
def scanEnv : InitEnv := { netlinkOk := true, procs := [3, 4], scanOk := true }

/-- A stopped pool: stop channel closed, every runner exited, one unit
abandoned in the channel. -/
def c7StoppedPool : PoolState :=
  { stopClosed := true, queue := [⟨0, 42⟩], workers := [.exited, .exited]
    executed := [⟨0, 7⟩], enqueued := [⟨0, 7⟩, ⟨0, 42⟩] }

theorem applyCmd_poolStep {s s' : PoolState} {c : PoolCmd}
    (h : applyCmd s c = some s') : PoolStep s s' := by
  cases c with
  | enqueue u =>
      simp only [applyCmd] at h
      split at h
      · rw [Option.some.injEq] at h
        exact h ▸ PoolStep.enqueue s u (by assumption)
      · exact absurd h (by simp)
  | closeStop =>
      simp only [applyCmd, Option.some.injEq] at h
      exact h ▸ PoolStep.closeStop s
  | exitWorker i =>
      simp only [applyCmd] at h
      cases hw : s.workers.get? i with
      | none => rw [hw] at h; exact absurd h (by simp)
      | some w =>
          rw [hw] at h
          cases w with
          | idle =>
              simp only at h
              split at h
              · rw [Option.some.injEq] at h
                exact h ▸ PoolStep.exitWorker s i hw (by simpa using ‹_›)
              · exact absurd h (by simp)
          | holding u => exact absurd h (by simp)
          | exited => exact absurd h (by simp)
  | take i =>
      simp only [applyCmd] at h
      cases hw : s.workers.get? i with
      | none =>
          rw [hw] at h
          cases s.queue <;> exact absurd h (by simp)
      | some w =>
          rw [hw] at h
          cases w with
          | idle =>
              cases hq : s.queue with
              | nil => rw [hq] at h; exact absurd h (by simp)
              | cons u rest =>
                  rw [hq] at h
                  simp only [Option.some.injEq] at h
                  exact h ▸ PoolStep.take s i u rest hw hq
          | holding u =>
              cases s.queue <;> exact absurd h (by simp)
          | exited =>
              cases s.queue <;> exact absurd h (by simp)
  | run i =>
      simp only [applyCmd] at h
      cases hw : s.workers.get? i with
      | none => rw [hw] at h; exact absurd h (by simp)
      | some w =>
          rw [hw] at h
          cases w with
          | idle => exact absurd h (by simp)
          | holding u =>
              simp only [Option.some.injEq] at h
              exact h ▸ PoolStep.run s i u hw
          | exited => exact absurd h (by simp)

theorem runScript_poolSteps {s s' : PoolState} {cs : List PoolCmd}
    (h : runScript s cs = some s') : PoolSteps s s' := by
  induction cs generalizing s with
  | nil =>
      simp only [runScript, Option.some.injEq] at h
      exact h ▸ Relation.ReflTransGen.refl
  | cons c cs ih =>
      simp only [runScript] at h
      cases hc : applyCmd s c with
      | none => rw [hc] at h; exact absurd h (by simp)
      | some s1 =>
          rw [hc] at h
          exact Relation.ReflTransGen.head (applyCmd_poolStep hc) (ih h)

theorem dispatchAll_spec (cbs : List CallbackId) (pid : Pid)
    (queue : List DispatchUnit) (dropped : Nat) :
    dispatchAll cbs pid queue dropped =
      (queue ++
        (cbs.take (pendingCallbacksQueueSize - queue.length)).map
          (fun cb => DispatchUnit.mk cb pid),
       dropped + (cbs.length - (pendingCallbacksQueueSize - queue.length))) := by
  induction cbs generalizing queue dropped with
  | nil => simp [dispatchAll]
  | cons cb rest ih =>
      by_cases hlen : queue.length < pendingCallbacksQueueSize
      · rw [dispatchAll, if_pos hlen, ih]
        have hfree : pendingCallbacksQueueSize - queue.length =
            (pendingCallbacksQueueSize - (queue.length + 1)) + 1 := by omega
        rw [Prod.mk.injEq]
        constructor
        · rw [hfree, List.take_succ_cons]
          simp [List.append_assoc]
        · simp only [List.length_append, List.length_cons, List.length_nil,
            Nat.zero_add]
          omega
      · rw [dispatchAll, if_neg hlen, ih]
        have hfree : pendingCallbacksQueueSize - queue.length = 0 := by omega
        rw [Prod.mk.injEq]
        constructor
        · simp [hfree]
        · simp only [List.length_cons, hfree]
          omega

theorem handleProcessExec_spec (pm : ProcessMonitor) (pid : Pid) :
    handleProcessExec pm pid =
      { pm with
          callbackRunner := pm.callbackRunner ++
            ((pm.processExecCallbacks.take
                (pendingCallbacksQueueSize - pm.callbackRunner.length)).map
              (fun cb => DispatchUnit.mk cb pid))
          tel := { pm.tel with
            processExecChannelIsFull := pm.tel.processExecChannelIsFull +
              (pm.processExecCallbacks.length -
                (pendingCallbacksQueueSize - pm.callbackRunner.length)) } } := by
  unfold handleProcessExec
  rw [dispatchAll_spec]

theorem handleProcessExit_spec (pm : ProcessMonitor) (pid : Pid) :
    handleProcessExit pm pid =
      { pm with
          callbackRunner := pm.callbackRunner ++
            ((pm.processExitCallbacks.take
                (pendingCallbacksQueueSize - pm.callbackRunner.length)).map
              (fun cb => DispatchUnit.mk cb pid))
          tel := { pm.tel with
            processExitChannelIsFull := pm.tel.processExitChannelIsFull +
              (pm.processExitCallbacks.length -
                (pendingCallbacksQueueSize - pm.callbackRunner.length)) } } := by
  unfold handleProcessExit
  rw [dispatchAll_spec]

theorem foldl_handleProcessExec_refcount (ps : List Pid) (pm : ProcessMonitor) :
    (List.foldl handleProcessExec pm ps).refcount = pm.refcount := by
  induction ps generalizing pm with
  | nil => rfl
  | cons p ps ih => rw [List.foldl_cons, ih]; rfl

theorem foldl_handleProcessExec_initOnceDone (ps : List Pid)
    (pm : ProcessMonitor) :
    (List.foldl handleProcessExec pm ps).initOnceDone = pm.initOnceDone := by
  induction ps generalizing pm with
  | nil => rfl
  | cons p ps ih => rw [List.foldl_cons, ih]; rfl

theorem initializeMonitor_refcount (pm : ProcessMonitor) (b : Bool)
    (env : InitEnv) :
    (initializeMonitor pm b env).pm.refcount = pm.refcount := by
  unfold initializeMonitor
  repeat' split
  all_goals simp_all [initSetup, foldl_handleProcessExec_refcount]
  all_goals (split <;> simp [foldl_handleProcessExec_refcount])

theorem initializeMonitor_initOnceDone (pm : ProcessMonitor) (b : Bool)
    (env : InitEnv) :
    (initializeMonitor pm b env).pm.initOnceDone = true := by
  unfold initializeMonitor
  repeat' split
  all_goals simp_all [initSetup, foldl_handleProcessExec_initOnceDone]
  all_goals (split <;> simp [foldl_handleProcessExec_initOnceDone])

theorem initializeMonitor_of_done (pm : ProcessMonitor) (b : Bool)
    (env : InitEnv) (h : pm.initOnceDone = true) :
    initializeMonitor pm b env = { pm := pm, err := none, actions := [] } := by
  unfold initializeMonitor
  rw [if_pos h]

theorem acquireAndInit_refcount (env : InitEnv) (pm : ProcessMonitor) :
    (acquireAndInit env pm).refcount = pm.refcount + 1 := by
  unfold acquireAndInit
  rw [initializeMonitor_refcount]
  rfl

theorem acquireAndInit_initOnceDone (env : InitEnv) (pm : ProcessMonitor) :
    (acquireAndInit env pm).initOnceDone = true :=
  initializeMonitor_initOnceDone (getProcessMonitor pm) false env

theorem iterate_acquireAndInit_refcount (env : InitEnv) (k : Nat) :
    ((acquireAndInit env)^[k] initialMonitor).refcount = (k : Int) := by
  induction k with
  | zero => rfl
  | succ k ih =>
      rw [Function.iterate_succ_apply', acquireAndInit_refcount, ih]
      push_cast
      ring

theorem iterate_acquireAndInit_initOnceDone (env : InitEnv) (k : Nat)
    (hk : 1 ≤ k) :
    ((acquireAndInit env)^[k] initialMonitor).initOnceDone = true := by
  obtain ⟨j, rfl⟩ : ∃ j, k = j + 1 := ⟨k - 1, by omega⟩
  rw [Function.iterate_succ_apply']
  exact acquireAndInit_initOnceDone env _

theorem stop_of_refcount_pos (pm : ProcessMonitor) (h : 2 ≤ pm.refcount) :
    stop pm = ({ pm with refcount := pm.refcount - 1 }, false) := by
  unfold stop
  rw [if_pos (by omega)]
  rw [if_neg (by omega)]

theorem stop_clamp_of_refcount_nonpos (pm : ProcessMonitor)
    (h : pm.refcount ≤ 0) :
    stop pm = ({ pm with refcount := 0 }, false) := by
  unfold stop
  rw [if_pos (by omega)]
  rw [if_pos (by omega)]

theorem stop_teardown_of_refcount_one (pm : ProcessMonitor)
    (h : pm.refcount = 1) :
    (stop pm).2 = true ∧
    (stop pm).1.refcount = 0 ∧
    (stop pm).1.initOnceDone = false ∧
    (stop pm).1.processExecCallbacks = [] ∧
    (stop pm).1.processExitCallbacks = [] ∧
    (stop pm).1.hasExecCallbacks = pm.hasExecCallbacks ∧
    (stop pm).1.hasExitCallbacks = pm.hasExitCallbacks := by
  unfold stop
  rw [if_neg (by omega)]
  by_cases hd : pm.doneOpen <;> simp [hd]

theorem stop_snd_true_refcount (pm : ProcessMonitor)
    (h : (stop pm).2 = true) : pm.refcount = 1 := by
  rcases lt_trichotomy pm.refcount 1 with h1 | h1 | h1
  · rw [stop_clamp_of_refcount_nonpos pm (by omega)] at h
    simp at h
  · exact h1
  · rw [stop_of_refcount_pos pm (by omega)] at h
    simp at h

theorem stop_refcount_dec (pm : ProcessMonitor) (h : 1 ≤ pm.refcount) :
    (stop pm).1.refcount = pm.refcount - 1 := by
  rcases Int.lt_or_le 1 pm.refcount with h1 | h1
  · rw [stop_of_refcount_pos pm (by omega)]
  · have : pm.refcount = 1 := by omega
    rw [(stop_teardown_of_refcount_one pm this).2.1, this]
    rfl

theorem iterate_stopFst_refcount (pm : ProcessMonitor) (j : Nat)
    (hj : (j : Int) ≤ pm.refcount) :
    (stopFst^[j] pm).refcount = pm.refcount - j := by
  induction j with
  | zero => simp
  | succ j ih =>
      rw [Function.iterate_succ_apply']
      have h1 : (stopFst^[j] pm).refcount = pm.refcount - j := by
        apply ih
        push_cast at hj ⊢
        omega
      have h2 : 1 ≤ (stopFst^[j] pm).refcount := by
        rw [h1]
        push_cast at hj ⊢
        omega
      show (stop (stopFst^[j] pm)).1.refcount = _
      rw [stop_refcount_dec _ h2, h1]
      push_cast
      ring

theorem filter_bne_of_not_mem {l : List Nat} {id : Nat} (h : id ∉ l) :
    l.filter (fun c => c != id) = l := by
  apply List.filter_eq_self.mpr
  intro a ha
  simp only [bne_iff_ne, ne_eq, decide_eq_true_eq]
  exact fun e => h (e ▸ ha)

theorem poolStep_stopAllReturned {s s' : PoolState}
    (h : stopAllReturned s) (hs : PoolStep s s') :
    stopAllReturned s' ∧ s'.executed = s.executed := by
  cases hs with
  | enqueue u hq => exact ⟨⟨h.1, h.2⟩, rfl⟩
  | closeStop => exact ⟨⟨rfl, h.2⟩, rfl⟩
  | exitWorker i hw hstop =>
      exact absurd (h.2 _ (List.get?_mem hw)) (by simp)
  | take i u rest hw hq =>
      exact absurd (h.2 _ (List.get?_mem hw)) (by simp)
  | run i u hw =>
      exact absurd (h.2 _ (List.get?_mem hw)) (by simp)

theorem poolStep_one_worker_inv {s s' : PoolState}
    (h1 : s.workers.length = 1)
    (h2 : s.enqueued = s.executed ++ heldUnits s.workers ++ s.queue)
    (hs : PoolStep s s') :
    s'.workers.length = 1 ∧
    s'.enqueued = s'.executed ++ heldUnits s'.workers ++ s'.queue := by
  cases hs with
  | enqueue u hq =>
      refine ⟨h1, ?_⟩
      simp only
      rw [h2]
      simp [List.append_assoc]
  | closeStop => exact ⟨h1, h2⟩
  | exitWorker i hw hstop =>
      obtain ⟨a, ha⟩ := List.length_eq_one.mp h1
      rw [ha] at hw ⊢
      cases i with
      | zero =>
          simp only [List.get?] at hw
          rw [Option.some.injEq] at hw
          subst hw
          refine ⟨by simp, ?_⟩
          simp only [List.set]
          rw [h2, ha]
          rfl
      | succ n => simp [List.get?] at hw
  | take i u rest hw hq =>
      obtain ⟨a, ha⟩ := List.length_eq_one.mp h1
      rw [ha] at hw ⊢
      cases i with
      | zero =>
          simp only [List.get?] at hw
          rw [Option.some.injEq] at hw
          subst hw
          refine ⟨by simp, ?_⟩
          simp only [List.set]
          rw [h2, ha, hq]
          simp [heldUnits]
      | succ n => simp [List.get?] at hw
  | run i u hw =>
      obtain ⟨a, ha⟩ := List.length_eq_one.mp h1
      rw [ha] at hw ⊢
      cases i with
      | zero =>
          simp only [List.get?] at hw
          rw [Option.some.injEq] at hw
          subst hw
          refine ⟨by simp, ?_⟩
          simp only [List.set]
          rw [h2, ha]
          simp [heldUnits]
      | succ n => simp [List.get?] at hw

/-- C4: enqueueing a dispatch unit never blocks.  For every event of a
kind and every currently subscribed callback of that kind, the unit is
enqueued while the bounded `callbackRunner` queue has free capacity, and
once it is full each further unit is dropped with the per-kind channel-full
counter (`processExecChannelIsFull` resp. `processExitChannelIsFull`)
incremented by exactly one per dropped unit; the handlers are total
functions returning only a new state, so no error can reach any caller,
and the registries themselves are untouched. -/
theorem C4_enqueue_drop_on_full (pm : ProcessMonitor) (pid : Pid) :
    ((handleProcessExec pm pid).callbackRunner =
        pm.callbackRunner ++
          ((pm.processExecCallbacks.take
              (pendingCallbacksQueueSize - pm.callbackRunner.length)).map
            (fun cb => DispatchUnit.mk cb pid)))
  ∧ ((handleProcessExec pm pid).tel.processExecChannelIsFull =
        pm.tel.processExecChannelIsFull +
          (pm.processExecCallbacks.length -
            (pendingCallbacksQueueSize - pm.callbackRunner.length)))
  ∧ ((handleProcessExit pm pid).callbackRunner =
        pm.callbackRunner ++
          ((pm.processExitCallbacks.take
              (pendingCallbacksQueueSize - pm.callbackRunner.length)).map
            (fun cb => DispatchUnit.mk cb pid)))
  ∧ ((handleProcessExit pm pid).tel.processExitChannelIsFull =
        pm.tel.processExitChannelIsFull +
          (pm.processExitCallbacks.length -
            (pendingCallbacksQueueSize - pm.callbackRunner.length)))
  ∧ ((handleProcessExec pm pid).processExecCallbacks =
        pm.processExecCallbacks)
  ∧ ((handleProcessExec pm pid).tel.processExitChannelIsFull =
        pm.tel.processExitChannelIsFull)
  ∧ ((handleProcessExit pm pid).tel.processExecChannelIsFull =
        pm.tel.processExecChannelIsFull) := by
  rw [handleProcessExec_spec, handleProcessExit_spec]
  refine ⟨rfl, rfl, rfl, rfl, rfl, rfl, rfl⟩

/-- C7: after `stopCallbackRunners` has returned (the stop channel closed
and every runner goroutine exited), no further transition of the pool
executes any dispatch unit: the executed log never grows again, so the
units abandoned in the never-closed queue are never invoked. -/
theorem C7_no_work_after_stopAll (s sFinal : PoolState)
    (h : stopAllReturned s) (hs : PoolSteps s sFinal) :
    sFinal.executed = s.executed ∧ stopAllReturned sFinal := by
  induction hs with
  | refl => exact ⟨rfl, h⟩
  | tail hsteps hstep ih =>
      obtain ⟨hexec, hstopped⟩ := ih
      obtain ⟨h1, h2⟩ := poolStep_stopAllReturned hstopped hstep
      exact ⟨h2.trans hexec, h1⟩

/-- Witness for C7 at a concrete stopped pool with an abandoned unit in
its queue. -/
theorem C7_no_work_after_stopAll_witness :
    c7StoppedPool.executed = c7StoppedPool.executed ∧
      stopAllReturned c7StoppedPool :=
  C7_no_work_after_stopAll c7StoppedPool c7StoppedPool (by decide)
    Relation.ReflTransGen.refl

/-- C8: on a received transport error the event loop increments the
restart counter, signals the current netlink subscription to close, sleeps
a fixed 50 ms, and attempts exactly one reopen; if the reopen fails it
increments the reinit-failure counter and the loop exits (its deferred
cleanup closing the done channel, stopping the runners and releasing the
wait group), and if the reopen succeeds the loop continues consuming
events. -/
theorem C8_transport_error_recovery (pm : ProcessMonitor) (reopenOk : Bool) :
    ((loopStep pm .transportError reopenOk).pm.tel.restart =
        pm.tel.restart + 1)
  ∧ ((loopStep pm .transportError reopenOk).actions =
        [.signalNetlinkDone, .sleepMs 50, .reopenNetlink])
  ∧ ((loopStep pm .transportError reopenOk).actions.count .reopenNetlink = 1)
  ∧ ((loopStep pm .transportError reopenOk).outcome =
        if reopenOk then .continueLoop else .exitLoop)
  ∧ ((loopStep pm .transportError reopenOk).pm.tel.reinitFailed =
        pm.tel.reinitFailed + if reopenOk then 0 else 1) := by
  cases reopenOk <;>
    refine ⟨rfl, rfl, rfl, rfl, rfl⟩

/-- C10: with the external event-stream transport selected, a first
`Initialize` only records the transport, allocates the done channel and
starts the dispatch workers, and returns success: no event loop is
started, no netlink subscription is opened, and no cold-start enumeration
happens even when exec subscriptions already exist (the registries are
left as they were; events arrive only through the externally wired
consumer callbacks). -/
theorem C10_event_stream_init (pm : ProcessMonitor) (env : InitEnv)
    (h : pm.initOnceDone = false) :
    initializeMonitor pm true env =
      { pm := initSetup pm true, err := none
        actions := [.newTelemetry, .initCallbackRunner] }
  ∧ InitAction.startEventLoop ∉ (initializeMonitor pm true env).actions
  ∧ InitAction.netlinkInit ∉ (initializeMonitor pm true env).actions
  ∧ InitAction.scanProcs ∉ (initializeMonitor pm true env).actions
  ∧ (initializeMonitor pm true env).pm.processExecCallbacks =
      pm.processExecCallbacks := by
  have heq : initializeMonitor pm true env =
      { pm := initSetup pm true, err := none
        actions := [.newTelemetry, .initCallbackRunner] } := by
    unfold initializeMonitor
    rw [if_neg (by simp [h])]
    rfl
  refine ⟨heq, ?_, ?_, ?_, ?_⟩ <;> rw [heq] <;> simp [initSetup]

/-- Witness for C10 at a monitor that already has one exec subscription. -/
theorem C10_event_stream_init_witness :
    oneExecSubMonitor.initOnceDone = false ∧
      oneExecSubMonitor.processExecCallbacks ≠ [] ∧
      (initializeMonitor oneExecSubMonitor true goodEnv).pm.processExecCallbacks =
        oneExecSubMonitor.processExecCallbacks :=
  ⟨by decide, by decide,
    (C10_event_stream_init oneExecSubMonitor goodEnv (by decide)).2.2.2.2⟩

/-- C1 is refuted as stated: after subscribing one exec callback,
acquiring a reference and releasing it to refcount zero, the teardown in
`Stop` clears the exec registry but leaves `hasExecCallbacks` at true, so
the flag no longer equals non-emptiness of the callback set. -/
theorem C1_counterexample :
    (stop (subscribeExec (getProcessMonitor initialMonitor)).1).2 = true ∧
    ¬ flagsInSync (stop (subscribeExec (getProcessMonitor initialMonitor)).1).1 := by
  decide

/-- C1 (amended): the per-kind "has subscribers" flag equals non-emptiness
of the corresponding callback set after any completed
`SubscribeExec`/`SubscribeExit` and after any completed invocation of a
returned unsubscribe function; a `Stop` that reaches refcount zero,
however, clears both registries while leaving both flags unchanged, so the
flag of a kind that had subscribers stays true over an empty registry
until the next subscribe or unsubscribe of that kind. -/
theorem C1_flag_sync_amended (pm : ProcessMonitor) (id : CallbackId)
    (h : flagsInSync pm) :
    flagsInSync (subscribeExec pm).1
  ∧ flagsInSync (subscribeExit pm).1
  ∧ flagsInSync (unsubscribeExec pm id)
  ∧ flagsInSync (unsubscribeExit pm id)
  ∧ ((stop pm).2 = true →
      (stop pm).1.processExecCallbacks = [] ∧
      (stop pm).1.processExitCallbacks = [] ∧
      (stop pm).1.hasExecCallbacks = pm.hasExecCallbacks ∧
      (stop pm).1.hasExitCallbacks = pm.hasExitCallbacks) := by
  refine ⟨⟨?_, h.2⟩, ⟨h.1, ?_⟩, ⟨?_, h.2⟩, ⟨h.1, ?_⟩, ?_⟩
  · simp [subscribeExec]
  · simp [subscribeExit]
  · simp [unsubscribeExec]
  · simp [unsubscribeExit]
  · intro ht
    obtain ⟨-, -, -, h4, h5, h6, h7⟩ :=
      stop_teardown_of_refcount_one pm (stop_snd_true_refcount pm ht)
    exact ⟨h4, h5, h6, h7⟩

/-- Witness for the amended C1 at the fresh monitor. -/
theorem C1_flag_sync_amended_witness :
    flagsInSync initialMonitor ∧
      flagsInSync (subscribeExec initialMonitor).1 :=
  ⟨by decide, (C1_flag_sync_amended initialMonitor 0 (by decide)).1⟩

/-- C2 is refuted as stated: a first `Initialize` whose netlink
registration fails does return the error synchronously, but the
`sync.Once` guard is consumed anyway, so a retry without an intervening
teardown performs no initialization work at all (empty action trace,
unchanged state) and returns nil instead of re-running and succeeding. -/
theorem C2_counterexample :
    c2AfterFailedInit.err = some InitError.netlinkInit
  ∧ c2AfterFailedInit.pm.initOnceDone = true
  ∧ initializeMonitor c2AfterFailedInit.pm false goodEnv =
      { pm := c2AfterFailedInit.pm, err := none, actions := [] } := by
  decide

/-- C2 (amended): an initialization failure is surfaced synchronously to
the triggering caller, but the one-time-init guard is consumed even by the
failure: a later `Initialize` without an intervening teardown to refcount
zero is a no-op returning nil, and only a `Stop` that reaches refcount
zero resets the guard so that a future `Initialize` re-runs. -/
theorem C2_init_failure_amended (pm : ProcessMonitor) (env env2 : InitEnv)
    (h : pm.initOnceDone = false) (hnet : env.netlinkOk = false) :
    (initializeMonitor pm false env).err ≠ none
  ∧ (initializeMonitor pm false env).pm.initOnceDone = true
  ∧ (initializeMonitor (initializeMonitor pm false env).pm false env2 =
      { pm := (initializeMonitor pm false env).pm, err := none, actions := [] })
  ∧ (pm.refcount = 1 →
      (stop (initializeMonitor pm false env).pm).1.initOnceDone = false) := by
  have hdone := initializeMonitor_initOnceDone pm false env
  refine ⟨?_, hdone, initializeMonitor_of_done _ false env2 hdone, ?_⟩
  · unfold initializeMonitor
    rw [if_neg (by simp [h])]
    simp only [hnet]
    repeat' split
    all_goals simp_all
  · intro hrc
    have hrc1 : (initializeMonitor pm false env).pm.refcount = 1 := by
      rw [initializeMonitor_refcount, hrc]
    exact (stop_teardown_of_refcount_one _ hrc1).2.2.1

/-- Witness for the amended C2: a fresh acquire whose netlink registration
fails, then a retry in a healthy environment. -/
theorem C2_init_failure_amended_witness :
    (initializeMonitor initialMonitor false badNetlinkEnv).err ≠ none ∧
      (initializeMonitor (initializeMonitor initialMonitor false
          badNetlinkEnv).pm false goodEnv =
        { pm := (initializeMonitor initialMonitor false badNetlinkEnv).pm
          err := none, actions := [] }) :=
  ⟨(C2_init_failure_amended initialMonitor badNetlinkEnv goodEnv
      (by decide) (by decide)).1,
   (C2_init_failure_amended initialMonitor badNetlinkEnv goodEnv
      (by decide) (by decide)).2.2.1⟩

/-- C3 is refuted as stated: when the external event-stream transport is
selected, `Initialize` performs no cold-start enumeration even though an
exec subscription exists at that moment, so "enumeration happens if and
only if at least one exec subscription exists" fails in that mode. -/
theorem C3_counterexample :
    oneExecSubMonitor.processExecCallbacks ≠ []
  ∧ InitAction.scanProcs ∉
      (initializeMonitor oneExecSubMonitor true goodEnv).actions := by
  decide

/-- C3 (amended): in netlink mode (`useEventStream = false`) a first
`Initialize` invokes the cold-start enumerator exactly when at least one
exec subscription exists at that moment, and when it does every enumerated
process id is fed through `handleProcessExec`; in event-stream mode the
enumeration never happens. -/
theorem C3_cold_start_scan_amended (pm : ProcessMonitor) (env : InitEnv)
    (h : pm.initOnceDone = false) (hscan : env.scanOk = true) :
    (InitAction.scanProcs ∈ (initializeMonitor pm false env).actions ↔
        pm.processExecCallbacks ≠ [])
  ∧ (pm.processExecCallbacks ≠ [] →
        (initializeMonitor pm false env).pm =
          List.foldl handleProcessExec (initSetup pm false) env.procs)
  ∧ InitAction.scanProcs ∉ (initializeMonitor pm true env).actions := by
  have hstream : InitAction.scanProcs ∉
      (initializeMonitor pm true env).actions := by
    unfold initializeMonitor
    rw [if_neg (by simp [h])]
    simp
  unfold initializeMonitor
  rw [if_neg (by simp [h])]
  by_cases hc : pm.processExecCallbacks = []
  · have hce : (initSetup pm false).processExecCallbacks.isEmpty = true := by
      simp [initSetup, hc]
    refine ⟨?_, ?_, hstream⟩
    · simp only [hce]
      simp [hc]
    · intro hne
      exact absurd hc hne
  · have hce : ¬ (initSetup pm false).processExecCallbacks.isEmpty = true := by
      simp [initSetup, hc]
    refine ⟨?_, ?_, hstream⟩
    · simp only [if_neg hce, hscan]
      simp [hc]
    · intro _
      simp only [if_neg hce, hscan]
      simp

/-- Witness for the amended C3 at a monitor with one exec subscription and
an enumerator yielding pids 3 and 4. -/
theorem C3_cold_start_scan_amended_witness :
    (InitAction.scanProcs ∈
        (initializeMonitor oneExecSubMonitor false scanEnv).actions ↔
      oneExecSubMonitor.processExecCallbacks ≠ []) ∧
    (initializeMonitor oneExecSubMonitor false scanEnv).pm =
      List.foldl handleProcessExec (initSetup oneExecSubMonitor false)
        scanEnv.procs :=
  ⟨(C3_cold_start_scan_amended oneExecSubMonitor scanEnv
      (by decide) (by decide)).1,
   (C3_cold_start_scan_amended oneExecSubMonitor scanEnv
      (by decide) (by decide)).2.1 (by decide)⟩

/-- C6 is refuted as stated: the release-at-refcount-zero half holds, but
a second invocation of an unsubscribe function can change the per-kind
flag.  Subscribe an exec callback, unsubscribe it (flag false), subscribe
a second exec callback (flag true), acquire and release to refcount zero
(teardown empties the registry, flag stays true); a second invocation of
the first unsubscribe function now leaves the registry unchanged but
flips the stale flag from true to false. -/
theorem C6_counterexample :
    c6AfterSecondUnsub.processExecCallbacks =
        c6AfterTeardown.processExecCallbacks
  ∧ c6AfterTeardown.hasExecCallbacks = true
  ∧ c6AfterSecondUnsub.hasExecCallbacks = false := by
  decide

/-- C6 (amended): a `Stop` when the refcount is already at (or below)
zero clamps the refcount back to zero and changes nothing else — no
teardown; invoking an unsubscribe function whose key is no longer
registered leaves the registry unchanged and stores registry-non-emptiness
into the per-kind flag — in particular the flag is unchanged whenever it
was in sync with the registry, and only a stale flag left by a teardown is
rewritten. -/
theorem C6_misuse_noop_amended (pm : ProcessMonitor) (idX idT : CallbackId)
    (hrc : pm.refcount ≤ 0)
    (hX : idX ∉ pm.processExecCallbacks)
    (hT : idT ∉ pm.processExitCallbacks) :
    stop pm = ({ pm with refcount := 0 }, false)
  ∧ (unsubscribeExec pm idX).processExecCallbacks = pm.processExecCallbacks
  ∧ (unsubscribeExec pm idX).hasExecCallbacks =
      !pm.processExecCallbacks.isEmpty
  ∧ (unsubscribeExit pm idT).processExitCallbacks = pm.processExitCallbacks
  ∧ (unsubscribeExit pm idT).hasExitCallbacks =
      !pm.processExitCallbacks.isEmpty := by
  refine ⟨stop_clamp_of_refcount_nonpos pm hrc, ?_, ?_, ?_, ?_⟩
  · simp [unsubscribeExec, filter_bne_of_not_mem hX]
  · simp [unsubscribeExec, filter_bne_of_not_mem hX]
  · simp [unsubscribeExit, filter_bne_of_not_mem hT]
  · simp [unsubscribeExit, filter_bne_of_not_mem hT]

/-- Witness for the amended C6 at the fresh monitor. -/
theorem C6_misuse_noop_amended_witness :
    stop initialMonitor = ({ initialMonitor with refcount := 0 }, false) :=
  (C6_misuse_noop_amended initialMonitor 5 7 (by decide) (by decide)
    (by decide)).1

/-- C5: for every N ≥ 1, after N acquires (each a `GetProcessMonitor`
followed by an `Initialize`) the teardown happens exactly at the N-th
release and not before: an acquire after the first finds the one-time
guard consumed, so its `Initialize` is a no-op returning nil; a release
while more than one reference remains only decrements the refcount and
performs no teardown; the N-th release reaches refcount zero and performs
the teardown. -/
theorem C5_refcount_lifecycle (N k j : Nat) (env : InitEnv)
    (hN : 1 ≤ N) (hk : 1 ≤ k) :
    (initializeMonitor
        (getProcessMonitor ((acquireAndInit env)^[k] initialMonitor))
        false env =
      { pm := getProcessMonitor ((acquireAndInit env)^[k] initialMonitor)
        err := none, actions := [] })
  ∧ (j + 1 < N →
      (stop (stopFst^[j] ((acquireAndInit env)^[N] initialMonitor))).2 =
        false)
  ∧ (stop (stopFst^[N - 1] ((acquireAndInit env)^[N] initialMonitor))).2 =
      true := by
  have hrcN : ((acquireAndInit env)^[N] initialMonitor).refcount = (N : Int) :=
    iterate_acquireAndInit_refcount env N
  refine ⟨?_, ?_, ?_⟩
  · apply initializeMonitor_of_done
    have hdone := iterate_acquireAndInit_initOnceDone env k hk
    exact hdone
  · intro hj
    have hrc := iterate_stopFst_refcount
      ((acquireAndInit env)^[N] initialMonitor) j
      (by rw [hrcN]; exact_mod_cast Nat.le_of_lt (by omega))
    rw [hrcN] at hrc
    rw [stop_of_refcount_pos _ (by rw [hrc]; omega)]
  · have hrc := iterate_stopFst_refcount
      ((acquireAndInit env)^[N] initialMonitor) (N - 1)
      (by rw [hrcN]; exact_mod_cast Nat.sub_le N 1)
    rw [hrcN] at hrc
    have h1 : (stopFst^[N - 1] ((acquireAndInit env)^[N]
        initialMonitor)).refcount = 1 := by
      rw [hrc]
      have hc : ((N - 1 : Nat) : Int) = (N : Int) - 1 := by
        push_cast [hN]
        ring
      rw [hc]
      ring
    exact (stop_teardown_of_refcount_one _ h1).1

/-- Witness for C5 with two acquires and two releases. -/
theorem C5_refcount_lifecycle_witness :
    (initializeMonitor
        (getProcessMonitor ((acquireAndInit goodEnv)^[1] initialMonitor))
        false goodEnv =
      { pm := getProcessMonitor ((acquireAndInit goodEnv)^[1] initialMonitor)
        err := none, actions := [] })
  ∧ (0 + 1 < 2 →
      (stop (stopFst^[0] ((acquireAndInit goodEnv)^[2] initialMonitor))).2 =
        false)
  ∧ (stop (stopFst^[2 - 1] ((acquireAndInit goodEnv)^[2]
        initialMonitor))).2 = true :=
  C5_refcount_lifecycle 2 1 0 goodEnv (by decide) (by decide)

/-- C9 is refuted as stated: with a pool of two parallel runners draining
the shared FIFO queue, feeding a single exec subscription the pids
10, 20, 10, 30 in that order admits a legal interleaving in which the
callback observes 20, 10, 10, 30 — take and `call()` are separate steps,
so a runner that received an earlier unit can complete it after another
runner completes a later one. -/
theorem C9_counterexample :
    ¬ (∀ sFinal : PoolState, PoolSteps c9Worker2Start sFinal →
        sFinal.enqueued = c9Fed → sFinal.queue = [] →
        heldUnits sFinal.workers = [] →
        sFinal.executed = c9Fed) := by
  intro hclaim
  have hrun : runScript c9Worker2Start c9BadScript = some c9Bad := by decide
  have hbad := hclaim c9Bad (runScript_poolSteps hrun) (by decide) (by decide)
    (by decide)
  exact absurd hbad (by decide)

/-- C9 (amended): units are sent into the shared queue in the order the
single event loop observed the events, and the queue is FIFO, but with
several parallel runners the completion order of callbacks is not
guaranteed; with a single runner the recorded sequence equals the fed
order exactly — every execution that drains the queue ends with the
executed log equal to the enqueue log. -/
theorem C9_single_worker_order (s sFinal : PoolState)
    (h1 : s.workers.length = 1)
    (h2 : s.enqueued = s.executed ++ heldUnits s.workers ++ s.queue)
    (hs : PoolSteps s sFinal)
    (hq : sFinal.queue = []) (hh : heldUnits sFinal.workers = []) :
    sFinal.executed = sFinal.enqueued := by
  have hinv : sFinal.workers.length = 1 ∧
      sFinal.enqueued = sFinal.executed ++ heldUnits sFinal.workers ++
        sFinal.queue := by
    clear hq hh
    induction hs with
    | refl => exact ⟨h1, h2⟩
    | tail hsteps hstep ih => exact poolStep_one_worker_inv ih.1 ih.2 hstep
  rw [hinv.2, hq, hh]
  simp

/-- Witness for the amended C9: a single runner delivering two units in
order. -/
theorem C9_single_worker_order_witness :
    c9Good.executed = c9Good.enqueued :=
  C9_single_worker_order c9OneWorkerStart c9Good (by decide) (by decide)
    (@runScript_poolSteps c9OneWorkerStart c9Good c9GoodScript (by decide))
    (by decide) (by decide)

end ProcMon
